import Mathlib

/-!
Verification of the voicemeeter-chroma runtime hook-and-patch core.

The C++ sources (`utils.cpp` and the hook translation unit) are shallowly
embedded: module memory is a list of byte values (`List Nat`, each < 256 in
practice), pointers are offsets from the module base (`Nat`), machine integers
are `Nat`/`Int` and C++ `int` division (truncation toward zero) is `Int.tdiv`.
Fallible operations return `Option`; WinAPI calls whose outcome the code only
branches on (`VirtualProtect`, `DetourAttach`, ...) are modelled by explicit
outcome oracles.
-/

/-! ## Pattern scanner (`utils::find_signatures`) -/

/-- A byte signature: ordered pattern bytes plus a mask in which the character
`'?'` marks a wildcard position (mirrors `signature_t` in `utils.hpp`, whose
mask is a `std::string`, here its character list). -/
structure signature_t where
  pattern : List Nat
  mask : List Char

/-- The inner loop of `utils::find_signatures` at window offset `i`: the
signature matches when for every pattern index `j`, either `mask[j] == '?'` or
`pattern[j] == start[i + j]` (the loop clears `found` exactly when
`mask[j] != '?' && pattern[j] != start[i + j]`). -/
def matches_at (sig : signature_t) (img : List Nat) (i : Nat) : Bool :=
  (List.range sig.pattern.length).all fun j =>
    sig.mask.getD j 'x' == '?' || sig.pattern.getD j 0 == img.getD (i + j) 0

/-- Model of `utils::find_signatures`: slide the pattern over the module image
(`for i = 0; i <= image_size - pattern_size; i++`), collecting every matching
offset in ascending order.  The C++ function returns absolute addresses
`module_base + i`; the model returns the offsets `i`. -/
def find_signatures (sig : signature_t) (img : List Nat) : List Nat :=
  (List.range (img.length - sig.pattern.length + 1)).filter (matches_at sig img)

/-! ## Code cave allocator (`utils::find_code_cave`) -/

/-- A PE section header as `find_code_cave` reads it: the section name (a char
array in the image), its relative virtual address, and `Misc.VirtualSize`. -/
structure section_info where
  name : List Char
  virtualAddress : Nat
  virtualSize : Nat

/-- The first five characters of `.text`, the prefix `strncmp(Name, ".text", 5)`
compares against. -/
def text_name : List Char := ['.', 't', 'e', 'x', 't']

/-- The section loop of `utils::find_code_cave`: every section whose name
starts with `.text` overwrites `ptr_text_end` with its
`VirtualAddress + Misc.VirtualSize`; after the loop the last such section's end
remains, or `none` when no section matched. -/
def find_text_end (sections : List section_info) : Option Nat :=
  sections.foldl
    (fun acc s => if s.name.take 5 = text_name then some (s.virtualAddress + s.virtualSize) else acc)
    none

/-- Model of `utils::find_code_cave`: locate the end of the `.text` section and
verify that the `size` bytes starting there are all zero; return the text-end
offset only after full verification, `none` on any non-zero byte or when no
`.text` section exists.  `mem a` is the byte of the process image at offset `a`
from the module base. -/
def find_code_cave (sections : List section_info) (mem : Nat → Nat) (size : Nat) : Option Nat :=
  match find_text_end sections with
  | none => none
  | some ptr_text_end =>
    if (List.range size).all (fun i => mem (ptr_text_end + i) == 0) then some ptr_text_end
    else none

/-! ## Claim C1 -/

/-- Claim C1: for every signature (pattern plus equal-length mask) and every
scanned image, `find_signatures` returns exactly the set of offsets `i` at
which every non-wildcard pattern byte equals the image byte at `i` plus that
position (wildcards match any byte), and the returned offsets — hence the
absolute addresses `base + i` — are in ascending order. -/
theorem find_signatures_correct (sig : signature_t) (img : List Nat)
    (_hmask : sig.mask.length = sig.pattern.length)
    (hlen : sig.pattern.length ≤ img.length) :
    (∀ i, i ∈ find_signatures sig img ↔
      i + sig.pattern.length ≤ img.length ∧
      ∀ j < sig.pattern.length, sig.mask.getD j 'x' ≠ '?' →
        sig.pattern.getD j 0 = img.getD (i + j) 0) ∧
    List.Pairwise (fun a b => a < b) (find_signatures sig img) := by
  constructor
  · intro i
    simp only [find_signatures, List.mem_filter, List.mem_range, matches_at,
      List.all_eq_true, Bool.or_eq_true, beq_iff_eq]
    constructor
    · rintro ⟨hi, hall⟩
      refine ⟨by omega, ?_⟩
      intro j hj hm
      rcases hall j hj with h | h
      · exact absurd h hm
      · exact h
    · rintro ⟨hi, hall⟩
      refine ⟨by omega, ?_⟩
      intro j hj
      by_cases hm : sig.mask.getD j 'x' = '?'
      · exact Or.inl hm
      · exact Or.inr (hall j hj hm)
  · exact (List.pairwise_lt_range _).filter _

/-- Witness for C1 at the spec's own scenario shape: the pattern
`F3 0F 59 05 ?? ?? ?? ??` sits once at offset 2 of a ten-byte buffer. -/
theorem find_signatures_correct_witness :
    ((⟨[0xF3, 0x0F, 0x59, 0x05, 0, 0], ['x', 'x', 'x', 'x', '?', '?']⟩ : signature_t).mask.length =
      (⟨[0xF3, 0x0F, 0x59, 0x05, 0, 0], ['x', 'x', 'x', 'x', '?', '?']⟩ : signature_t).pattern.length ∧
     (⟨[0xF3, 0x0F, 0x59, 0x05, 0, 0], ['x', 'x', 'x', 'x', '?', '?']⟩ : signature_t).pattern.length ≤
      ([0, 0, 0xF3, 0x0F, 0x59, 0x05, 0x11, 0x22, 0, 0] : List Nat).length) ∧
    ((∀ i, i ∈ find_signatures ⟨[0xF3, 0x0F, 0x59, 0x05, 0, 0], ['x', 'x', 'x', 'x', '?', '?']⟩
          [0, 0, 0xF3, 0x0F, 0x59, 0x05, 0x11, 0x22, 0, 0] ↔
        i + (⟨[0xF3, 0x0F, 0x59, 0x05, 0, 0], ['x', 'x', 'x', 'x', '?', '?']⟩ : signature_t).pattern.length ≤
          ([0, 0, 0xF3, 0x0F, 0x59, 0x05, 0x11, 0x22, 0, 0] : List Nat).length ∧
        ∀ j < (⟨[0xF3, 0x0F, 0x59, 0x05, 0, 0], ['x', 'x', 'x', 'x', '?', '?']⟩ : signature_t).pattern.length,
          (⟨[0xF3, 0x0F, 0x59, 0x05, 0, 0], ['x', 'x', 'x', 'x', '?', '?']⟩ : signature_t).mask.getD j 'x' ≠ '?' →
          (⟨[0xF3, 0x0F, 0x59, 0x05, 0, 0], ['x', 'x', 'x', 'x', '?', '?']⟩ : signature_t).pattern.getD j 0 =
            ([0, 0, 0xF3, 0x0F, 0x59, 0x05, 0x11, 0x22, 0, 0] : List Nat).getD (i + j) 0) ∧
      List.Pairwise (fun a b => a < b)
        (find_signatures ⟨[0xF3, 0x0F, 0x59, 0x05, 0, 0], ['x', 'x', 'x', 'x', '?', '?']⟩
          [0, 0, 0xF3, 0x0F, 0x59, 0x05, 0x11, 0x22, 0, 0])) :=
  ⟨⟨by decide, by decide⟩, find_signatures_correct _ _ (by decide) (by decide)⟩

/-! ## Claim C2 -/

/-- Claim C2: `find_code_cave` returns a pointer only after verifying that all
requested bytes at the end of the `.text` section are zero, and against a
region of exactly `K` zero bytes followed by a non-zero byte it succeeds
exactly for requests of size at most `K`. -/
theorem find_code_cave_correct (sections : List section_info) (mem : Nat → Nat)
    (e K : Nat) (htext : find_text_end sections = some e)
    (hzero : ∀ i < K, mem (e + i) = 0) (hstop : mem (e + K) ≠ 0) :
    (∀ size p, find_code_cave sections mem size = some p →
      p = e ∧ ∀ i < size, mem (p + i) = 0) ∧
    (∀ size, (find_code_cave sections mem size).isSome ↔ size ≤ K) := by
  have hall : ∀ size, ((List.range size).all (fun i => mem (e + i) == 0) = true ↔
      ∀ i < size, mem (e + i) = 0) := by
    intro size
    simp only [List.all_eq_true, List.mem_range, beq_iff_eq]
  constructor
  · intro size p hp
    simp only [find_code_cave, htext] at hp
    by_cases h : (List.range size).all (fun i => mem (e + i) == 0) = true
    · rw [if_pos h] at hp
      cases hp
      exact ⟨rfl, (hall size).mp h⟩
    · rw [if_neg h] at hp
      cases hp
  · intro size
    simp only [find_code_cave, htext]
    constructor
    · intro hs
      by_contra hgt
      have hK : K < size := by omega
      by_cases h : (List.range size).all (fun i => mem (e + i) == 0) = true
      · exact hstop ((hall size).mp h K hK)
      · rw [if_neg h] at hs
        simp at hs
    · intro hle
      have h : (List.range size).all (fun i => mem (e + i) == 0) = true :=
        (hall size).mpr fun i hi => hzero i (by omega)
      rw [if_pos h]
      exact rfl

/-- Witness for C2: a `.text` section ending at offset 4 of an image that holds
exactly two zero bytes there before a non-zero byte. -/
theorem find_code_cave_correct_witness :
    (find_text_end [⟨text_name, 0, 4⟩] = some 4 ∧
     (∀ i < 2, (fun a => if a < 6 then 0 else 1) (4 + i) = 0) ∧
     (fun a => if a < 6 then 0 else 1) (4 + 2) ≠ 0) ∧
    ((∀ size p, find_code_cave [⟨text_name, 0, 4⟩] (fun a => if a < 6 then 0 else 1) size = some p →
        p = 4 ∧ ∀ i < size, (fun a => if a < 6 then 0 else 1) (p + i) = 0) ∧
     (∀ size, (find_code_cave [⟨text_name, 0, 4⟩] (fun a => if a < 6 then 0 else 1) size).isSome ↔
        size ≤ 2)) :=
  ⟨⟨by decide, by decide, by decide⟩,
   find_code_cave_correct _ _ 4 2 (by decide) (by decide) (by decide)⟩

/-! ## Color conversion (`utils::colorref_to_hex`, `utils::hex_to_colorref`) -/

/-- Uppercase hexadecimal digit for a value below 16, as the stream formatting
`std::uppercase << std::hex` prints it. -/
def hex_digit_upper (n : Nat) : Char :=
  (['0', '1', '2', '3', '4', '5', '6', '7'] ++
    ['8', '9', 'A', 'B', 'C', 'D', 'E', 'F']).getD n '0'

/-- Two-digit zero-padded uppercase hex rendering of a byte
(`std::setw(2) << std::setfill('0')` applied to a value in 0..255). -/
def byte_to_hex (n : Nat) : List Char :=
  [hex_digit_upper (n / 16), hex_digit_upper (n % 16)]

/-- `GetRValue`: low byte of a 0x00BBGGRR COLORREF. -/
def GetRValue (color : Nat) : Nat := color % 256

/-- `GetGValue`: second byte of a COLORREF. -/
def GetGValue (color : Nat) : Nat := color / 256 % 256

/-- `GetBValue`: third byte of a COLORREF. -/
def GetBValue (color : Nat) : Nat := color / 65536 % 256

/-- The `RGB` macro: `r | (g << 8) | (b << 16)`. -/
def RGB (r g b : Nat) : Nat := r + g * 256 + b * 65536

/-- Model of `utils::colorref_to_hex`: `'#'` followed by the red, green and
blue bytes of the COLORREF, each printed as two uppercase hex digits. -/
def colorref_to_hex (color : Nat) : List Char :=
  '#' :: (byte_to_hex (GetRValue color) ++ byte_to_hex (GetGValue color) ++
    byte_to_hex (GetBValue color))

/-- Value of one hexadecimal digit character (both cases), `none` for a
non-digit, stated over ASCII codes: 48–57 are `0`–`9`, 65–70 are `A`–`F`,
97–102 are `a`–`f`. -/
def hex_digit_val (c : Char) : Option Nat :=
  let code := c.toNat
  if 48 ≤ code ∧ code ≤ 57 then some (code - 48)
  else if 65 ≤ code ∧ code ≤ 70 then some (code - 55)
  else if 97 ≤ code ∧ code ≤ 102 then some (code - 87)
  else none

/-- Accumulating loop of `std::stoul(s, nullptr, 16)`: consume the maximal
leading run of hex digits. -/
def stoul16_go (acc : Nat) : List Char → Nat
  | [] => acc
  | c :: rest =>
    match hex_digit_val c with
    | some d => stoul16_go (acc * 16 + d) rest
    | none => acc

/-- Model of `std::stoul(s, nullptr, 16)` as `hex_to_colorref` invokes it:
parse the maximal leading run of hex digits; when the string starts with no
digit at all, `std::stoul` throws, which the surrounding `catch` turns into
`none`.  (The whitespace / sign / `0x` forms `std::stoul` would additionally
accept cannot reach the conversion, which only passes six-character strings.) -/
def stoul16 (s : List Char) : Option Nat :=
  match s with
  | [] => none
  | c :: _ =>
    match hex_digit_val c with
    | some _ => some (stoul16_go 0 s)
    | none => none

/-- Model of `utils::hex_to_colorref`: reject the empty string, strip one
leading `'#'`, reject any remaining length other than six, parse as base-16
and reassemble via `RGB((v>>16)&0xFF, (v>>8)&0xFF, v&0xFF)`. -/
def hex_to_colorref (hex : List Char) : Option Nat :=
  if hex = [] then none
  else
    let clean_hex := if hex.headD ' ' = '#' then hex.drop 1 else hex
    if clean_hex.length ≠ 6 then none
    else
      match stoul16 clean_hex with
      | none => none
      | some value => some (RGB (value / 65536 % 256) (value / 256 % 256) (value % 256))

/-- Parsing inverts printing for a single hex digit. -/
theorem hex_digit_val_upper (m : Nat) (hm : m < 16) :
    hex_digit_val (hex_digit_upper m) = some m := by
  interval_cases m <;> decide

/-- A printed byte contributes its value to the `stoul16` accumulator. -/
theorem stoul16_go_byte (acc n : Nat) (hn : n < 256) (rest : List Char) :
    stoul16_go acc (byte_to_hex n ++ rest) = stoul16_go (acc * 256 + n) rest := by
  have h1 : n / 16 < 16 := by omega
  have h2 : n % 16 < 16 := by omega
  simp only [byte_to_hex, List.cons_append, List.nil_append, stoul16_go,
    hex_digit_val_upper _ h1, hex_digit_val_upper _ h2]
  have : (acc * 16 + n / 16) * 16 + n % 16 = acc * 256 + n := by omega
  rw [this]
  rfl

/-- A printed byte alone finishes the `stoul16` accumulator. -/
theorem stoul16_go_byte_nil (acc n : Nat) (hn : n < 256) :
    stoul16_go acc (byte_to_hex n) = acc * 256 + n := by
  have h := stoul16_go_byte acc n hn []
  rw [List.append_nil] at h
  rw [h]
  rfl

/-- `stoul16` of three printed bytes recovers their big-endian value. -/
theorem stoul16_three_bytes (r g b : Nat) (hr : r < 256) (hg : g < 256) (hb : b < 256) :
    stoul16 (byte_to_hex r ++ byte_to_hex g ++ byte_to_hex b) =
      some (r * 65536 + g * 256 + b) := by
  have hgo : stoul16_go 0 (byte_to_hex r ++ byte_to_hex g ++ byte_to_hex b) =
      r * 65536 + g * 256 + b := by
    rw [List.append_assoc, stoul16_go_byte 0 r hr, stoul16_go_byte _ g hg,
      stoul16_go_byte_nil _ b hb]
    omega
  have hhead : byte_to_hex r ++ byte_to_hex g ++ byte_to_hex b =
      hex_digit_upper (r / 16) ::
        (hex_digit_upper (r % 16) :: (byte_to_hex g ++ byte_to_hex b)) := by
    simp [byte_to_hex, List.append_assoc]
  rw [hhead]
  rw [hhead] at hgo
  simp only [stoul16, hex_digit_val_upper (r / 16) (by omega), hgo]

/-- Evaluation of `hex_to_colorref` on a six-character payload with the
leading `'#'` present. -/
theorem hex_to_colorref_hash_cons (s : List Char) (h6 : s.length = 6) :
    hex_to_colorref ('#' :: s) =
      match stoul16 s with
      | none => none
      | some value => some (RGB (value / 65536 % 256) (value / 256 % 256) (value % 256)) := by
  rw [hex_to_colorref]
  rw [if_neg (by simp)]
  have hhead : ('#' :: s).headD ' ' = '#' := rfl
  simp only [hhead, if_pos rfl, List.drop_succ_cons, List.drop_zero, if_true]
  rw [if_neg (by simp [h6])]

/-- Evaluation of `hex_to_colorref` on a six-character string that does not
start with `'#'`. -/
theorem hex_to_colorref_no_hash (s : List Char) (hne : s ≠ [])
    (hh : s.headD ' ' ≠ '#') (h6 : s.length = 6) :
    hex_to_colorref s =
      match stoul16 s with
      | none => none
      | some value => some (RGB (value / 65536 % 256) (value / 256 % 256) (value % 256)) := by
  rw [hex_to_colorref]
  rw [if_neg hne]
  simp only [if_neg hh, h6]
  rfl

/-! ## Claim C10 -/

/-- Claim C10: converting a COLORREF whose red, green and blue bytes occupy the
low 24 bits to hex and parsing the string back yields the original value;
`hex_to_colorref` accepts a six-hex-digit payload with or without the leading
`'#'`, and returns `none` for every string whose length after stripping one
leading `'#'` is not six. -/
theorem hex_colorref_roundtrip (c : Nat) (hc : c < 16777216) :
    hex_to_colorref (colorref_to_hex c) = some c ∧
    (∀ s : List Char, (∀ ch ∈ s, (hex_digit_val ch).isSome) → s.length = 6 →
      hex_to_colorref ('#' :: s) = hex_to_colorref s ∧ (hex_to_colorref s).isSome) ∧
    (∀ s : List Char, (if s.headD ' ' = '#' then s.drop 1 else s).length ≠ 6 →
      hex_to_colorref s = none) := by
  refine ⟨?_, ?_, ?_⟩
  · have hr : GetRValue c < 256 := Nat.mod_lt _ (by norm_num)
    have hg : GetGValue c < 256 := Nat.mod_lt _ (by norm_num)
    have hb : GetBValue c < 256 := Nat.mod_lt _ (by norm_num)
    have h6 : (byte_to_hex (GetRValue c) ++ byte_to_hex (GetGValue c) ++
        byte_to_hex (GetBValue c)).length = 6 := by
      simp [byte_to_hex]
    rw [colorref_to_hex, hex_to_colorref_hash_cons _ h6,
      stoul16_three_bytes _ _ _ hr hg hb]
    have hd : (GetRValue c * 65536 + GetGValue c * 256 + GetBValue c) / 65536 % 256 =
        GetRValue c ∧
        (GetRValue c * 65536 + GetGValue c * 256 + GetBValue c) / 256 % 256 = GetGValue c ∧
        (GetRValue c * 65536 + GetGValue c * 256 + GetBValue c) % 256 = GetBValue c := by
      generalize GetRValue c = r at hr
      generalize GetGValue c = g at hg
      generalize GetBValue c = b at hb
      omega
    show some (RGB ((GetRValue c * 65536 + GetGValue c * 256 + GetBValue c) / 65536 % 256)
        ((GetRValue c * 65536 + GetGValue c * 256 + GetBValue c) / 256 % 256)
        ((GetRValue c * 65536 + GetGValue c * 256 + GetBValue c) % 256)) = some c
    rw [hd.1, hd.2.1, hd.2.2]
    simp only [RGB, GetRValue, GetGValue, GetBValue, Option.some.injEq]
    omega
  · intro s hdig h6
    match s, h6 with
    | ch :: rest, h6 =>
      have hch : (hex_digit_val ch).isSome := hdig ch (by simp)
      have hne : ch :: rest ≠ [] := by simp
      have hh : (ch :: rest).headD ' ' ≠ '#' := by
        intro hcontra
        simp only [List.headD] at hcontra
        rw [hcontra] at hch
        simp [hex_digit_val] at hch
      rw [hex_to_colorref_hash_cons _ h6, hex_to_colorref_no_hash _ hne hh h6]
      refine ⟨rfl, ?_⟩
      rcases Option.isSome_iff_exists.mp hch with ⟨d, hd⟩
      simp only [stoul16, hd]
      rfl
  · intro s hlen
    match s with
    | [] => rfl
    | ch :: rest =>
      rw [hex_to_colorref]
      rw [if_neg (by simp)]
      by_cases hh : (ch :: rest).headD ' ' = '#'
      · rw [if_pos hh] at hlen ⊢
        rw [if_pos hlen]
      · rw [if_neg hh] at hlen ⊢
        rw [if_pos hlen]

/-- Witness for C10 at the concrete COLORREF 0x00ABCDEF. -/
theorem hex_colorref_roundtrip_witness :
    11259375 < 16777216 ∧
    (hex_to_colorref (colorref_to_hex 11259375) = some 11259375 ∧
     (∀ s : List Char, (∀ ch ∈ s, (hex_digit_val ch).isSome) → s.length = 6 →
       hex_to_colorref ('#' :: s) = hex_to_colorref s ∧ (hex_to_colorref s).isSome) ∧
     (∀ s : List Char, (if s.headD ' ' = '#' then s.drop 1 else s).length ≠ 6 →
       hex_to_colorref s = none)) :=
  ⟨by decide, hex_colorref_roundtrip 11259375 (by decide)⟩

/-! ## Audio-session process query (`hk_GetProcessId`) -/

/-- HRESULT success code `S_OK`. -/
def S_OK : Int := 0

/-- HRESULT code `S_FALSE`, which `hk_GetProcessId` returns for a denylisted
session ("no resolvable process"). -/
def S_FALSE : Int := 1

/-- Case-insensitive string equality as `lstrcmpiW(a, b) == 0` decides it,
modelled by comparison after lowercasing. -/
def str_ieq (a b : List Char) : Bool :=
  a.map Char.toLower == b.map Char.toLower

/-- Model of `utils::str_to_wstr` as the denylist scan invokes it on pure
character lists: the inner `MultiByteToWideChar(CP_UTF8, 0, str, size, ...)`
call returns 0 — treated as failure — exactly when the input holds zero bytes,
so conversion fails for the empty string and succeeds, returning the same
characters, otherwise. -/
def str_to_wstr (s : List Char) : Option (List Char) :=
  if s = [] then none else some s

/-- The denylist loop of `hk_GetProcessId`: each entry is first converted with
`str_to_wstr`; a conversion failure aborts the whole scan at once with `S_OK`,
keeping the original pid (`if (!wstr) { ...; return S_OK; }`) — later entries
are never compared.  A successfully converted entry that compares equal under
`lstrcmpiW` writes pid 0 and returns `S_FALSE`; an exhausted list returns
`S_OK` with the original pid. -/
def denylist_loop (orig_pid : Nat) (app_name : List Char) :
    List (List Char) → Int × Nat
  | [] => (S_OK, orig_pid)
  | s :: rest =>
    match str_to_wstr s with
    | none => (S_OK, orig_pid)
    | some wstr =>
      if str_ieq wstr app_name then (S_FALSE, 0)
      else denylist_loop orig_pid app_name rest

/-- Model of `hk_GetProcessId`: `orig_hr`/`orig_pid` are the status the
original COM method returns and the id it writes to `*pRetVal`; `image_name`
is `get_exe_image_name_for_pid` of that id (`none` when resolution fails);
`blacklist` is `config_manager::get_app_blacklist()`.  Result: the HRESULT and
the value left in `*pRetVal`. -/
def hk_GetProcessId (orig_hr : Int) (orig_pid : Nat) (image_name : Option (List Char))
    (blacklist : Option (List (List Char))) : Int × Nat :=
  if orig_hr ≠ S_OK then (orig_hr, orig_pid)
  else
    match image_name with
    | none => (S_OK, orig_pid)
    | some app_name =>
      match blacklist with
      | none => (S_OK, orig_pid)
      | some bl => denylist_loop orig_pid app_name bl

/-! ## Claim C9 -/

/-- Claim C9 counterexample: with the denylist `["", "foo.exe"]` and image
name `FOO.EXE`, the name matches the entry `foo.exe` case-insensitively, yet
the query keeps the original pid with `S_OK`: the empty first entry fails
`str_to_wstr` conversion and the loop returns early, before the matching
entry is ever compared — refuting the claim's "for every session whose image
name matches an entry" as stated. -/
theorem hk_GetProcessId_denylist_conversion_abort :
    (∃ s ∈ [([] : List Char), ['f', 'o', 'o', '.', 'e', 'x', 'e']],
      str_ieq s ['F', 'O', 'O', '.', 'E', 'X', 'E'] = true) ∧
    hk_GetProcessId S_OK 1234 (some ['F', 'O', 'O', '.', 'E', 'X', 'E'])
      (some [[], ['f', 'o', 'o', '.', 'e', 'x', 'e']]) = (S_OK, 1234) ∧
    hk_GetProcessId S_OK 1234 (some ['F', 'O', 'O', '.', 'E', 'X', 'E'])
      (some [[], ['f', 'o', 'o', '.', 'e', 'x', 'e']]) ≠ (S_FALSE, 0) := by
  refine ⟨⟨['f', 'o', 'o', '.', 'e', 'x', 'e'], by decide, by decide⟩, by decide, by decide⟩

/-- The denylist loop under entries that all convert (none empty): a
case-insensitive match yields `(S_FALSE, 0)`, no match keeps the original
pid with `S_OK`. -/
theorem denylist_loop_spec (orig_pid : Nat) (name : List Char)
    (bl : List (List Char)) (hconv : ∀ s ∈ bl, s ≠ []) :
    ((∃ s ∈ bl, str_ieq s name = true) →
      denylist_loop orig_pid name bl = (S_FALSE, 0)) ∧
    ((∀ s ∈ bl, str_ieq s name = false) →
      denylist_loop orig_pid name bl = (S_OK, orig_pid)) := by
  induction bl with
  | nil =>
    constructor
    · rintro ⟨s, hs, _⟩
      cases hs
    · intro _
      rfl
  | cons s rest ih =>
    have hs : str_to_wstr s = some s := by
      rw [str_to_wstr, if_neg (hconv s (List.mem_cons_self s rest))]
    obtain ⟨ih1, ih2⟩ := ih fun t ht => hconv t (List.mem_cons_of_mem s ht)
    constructor
    · rintro ⟨t, ht, hteq⟩
      simp only [denylist_loop, hs]
      by_cases hmatch : str_ieq s name = true
      · simp only [hmatch, if_true]
      · rw [if_neg (by simp [hmatch])]
        rcases List.mem_cons.mp ht with hts | htrest
        · rw [hts] at hteq
          exact absurd hteq hmatch
        · exact ih1 ⟨t, htrest, hteq⟩
    · intro hall
      simp only [denylist_loop, hs]
      rw [if_neg (by simp [hall s (List.mem_cons_self s rest)])]
      exact ih2 fun t ht => hall t (List.mem_cons_of_mem s ht)

/-- Claim C9 (amended): provided every denylist entry converts successfully
(no entry is the empty string — the one input on which `str_to_wstr` fails
and aborts the scan early with `S_OK`), a session whose process image name
matches an entry case-insensitively is reported as having no resolvable
process (`*pRetVal = 0` and `S_FALSE`), and a session matching no entry keeps
the id the original query returned. -/
theorem hk_GetProcessId_denylist (orig_pid : Nat) (name : List Char)
    (bl : List (List Char)) (hconv : ∀ s ∈ bl, s ≠ []) :
    ((∃ s ∈ bl, str_ieq s name = true) →
      hk_GetProcessId S_OK orig_pid (some name) (some bl) = (S_FALSE, 0)) ∧
    ((∀ s ∈ bl, str_ieq s name = false) →
      hk_GetProcessId S_OK orig_pid (some name) (some bl) = (S_OK, orig_pid)) := by
  obtain ⟨h1, h2⟩ := denylist_loop_spec orig_pid name bl hconv
  have hred : hk_GetProcessId S_OK orig_pid (some name) (some bl) =
      denylist_loop orig_pid name bl := by
    rw [hk_GetProcessId, if_neg (by simp)]
  constructor
  · intro hmatch
    rw [hred]
    exact h1 hmatch
  · intro hnone
    rw [hred]
    exact h2 hnone

/-- Witness for amended C9 at the spec scenario: denylist entry `foo.exe`
(non-empty, so it converts), session image name `FOO.EXE`. -/
theorem hk_GetProcessId_denylist_witness :
    ((∀ s ∈ [['f', 'o', 'o', '.', 'e', 'x', 'e']], s ≠ ([] : List Char)) ∧
     (∃ s ∈ [['f', 'o', 'o', '.', 'e', 'x', 'e']],
       str_ieq s ['F', 'O', 'O', '.', 'E', 'X', 'E'] = true)) ∧
    hk_GetProcessId S_OK 1234 (some ['F', 'O', 'O', '.', 'E', 'X', 'E'])
      (some [['f', 'o', 'o', '.', 'e', 'x', 'e']]) = (S_FALSE, 0) :=
  ⟨⟨by decide, by decide⟩,
   (hk_GetProcessId_denylist 1234 ['F', 'O', 'O', '.', 'E', 'X', 'E']
      [['f', 'o', 'o', '.', 'e', 'x', 'e']] (by decide)).1 (by decide)⟩

/-! ## Startup initialization (`hk_CreateMutexA` first call) -/

/-- The process-level outcome of the first `hk_CreateMutexA` call. -/
inductive init_outcome where
  /-- Control returns to the host through the original `CreateMutexA` with no
  cosmetic hooks applied. -/
  | continue_unhooked : init_outcome
  /-- Control returns to the host with the hook batch installed. -/
  | continue_hooked : init_outcome
  /-- The process was terminated with the given exit code. -/
  | terminated : Nat → init_outcome
deriving DecidableEq

/-- Model of `utils::mbox_error`: it displays a blocking message box and then
calls `exit(1)`; control never returns to the caller. -/
def mbox_error_outcome : init_outcome := init_outcome.terminated 1

/-- Model of the first-call branch of `hk_CreateMutexA`: the three flags are
the outcomes of `cm->load_config()`, `cm->init_theme()` and `apply_hooks()`.
The result is (was a blocking notification shown, process outcome).  On config
or theme failure the code calls `utils::mbox_error`, whose `exit(1)` makes the
`return o_CreateMutexA(...)` lines after it unreachable; on hook failure it
only logs and returns through the original function. -/
def hk_CreateMutexA_init (config_ok theme_ok hooks_ok : Bool) : Bool × init_outcome :=
  if !config_ok then (true, mbox_error_outcome)
  else if !theme_ok then (true, mbox_error_outcome)
  else if !hooks_ok then (false, init_outcome.continue_unhooked)
  else (false, init_outcome.continue_hooked)

/-! ## Claim C5 -/

/-- Claim C5 counterexample: when configuration load fails, the claim says the
host process continues to run with the original, un-instrumented functions;
in the code `mbox_error` terminates the process with exit code 1 instead, so
the outcome is neither `continue_unhooked` nor `continue_hooked`. -/
theorem hk_CreateMutexA_init_no_fallback :
    (hk_CreateMutexA_init false true true).2 = init_outcome.terminated 1 ∧
    (hk_CreateMutexA_init false true true).2 ≠ init_outcome.continue_unhooked ∧
    (hk_CreateMutexA_init false true true).2 ≠ init_outcome.continue_hooked := by
  decide

/-- Claim C5 (amended): when configuration load or theme initialization fails
at startup, the system surfaces a blocking notification and then terminates
the host process with exit code 1 (it does not fall back to running the host
with the original functions). -/
theorem hk_CreateMutexA_init_notify_then_exit (config_ok theme_ok hooks_ok : Bool)
    (h : config_ok = false ∨ theme_ok = false) :
    (hk_CreateMutexA_init config_ok theme_ok hooks_ok).1 = true ∧
    (hk_CreateMutexA_init config_ok theme_ok hooks_ok).2 = init_outcome.terminated 1 := by
  cases config_ok <;> cases theme_ok <;> simp_all [hk_CreateMutexA_init, mbox_error_outcome]

/-- Witness for amended C5 at a concrete failing configuration load. -/
theorem hk_CreateMutexA_init_notify_then_exit_witness :
    ((false : Bool) = false ∨ (true : Bool) = false) ∧
    ((hk_CreateMutexA_init false true true).1 = true ∧
     (hk_CreateMutexA_init false true true).2 = init_outcome.terminated 1) :=
  ⟨Or.inl rfl, hk_CreateMutexA_init_notify_then_exit false true true (Or.inl rfl)⟩

/-! ## Client-area query (`hk_GetClientRect`) -/

/-- A WinAPI RECT. -/
structure RECT where
  left : Int
  top : Int
  right : Int
  bottom : Int
deriving DecidableEq

/-- The window environment `hk_GetClientRect` queries: window handles are
naturals; `class_of` is `GetClassNameW`, `parent_of` is
`GetAncestor(hwnd, GA_PARENT)` (`none` on failure), `orig_ret` is the result
and rectangle of the original `GetClientRect`.  The three class-name constants
come from `window_manager` (declared in a header outside this translation
unit, so their concrete spellings stay abstract), and `hwnd_main` is the
tracked primary window `window_manager::get_hwnd_main()`. -/
structure wnd_env where
  class_of : Nat → List Char
  parent_of : Nat → Option Nat
  orig_ret : Nat → Bool × RECT
  main_cls : List Char
  wdb_cls : List Char
  comp_cls : List Char
  hwnd_main : Nat

/-- Model of `hk_GetClientRect`: when the parent window's class name is the
main-window class name, a window of the wdb class reports the fixed rectangle
(0,0,100,386) and a window of the compressor/denoiser class reports
(0,0,153,413); every other case falls through to the original function
(including parent-lookup failure, which only logs). -/
def hk_GetClientRect (env : wnd_env) (hWnd : Nat) : Bool × RECT :=
  match env.parent_of hWnd with
  | none => env.orig_ret hWnd
  | some parent =>
    if env.class_of parent = env.main_cls then
      if env.class_of hWnd = env.wdb_cls then (true, ⟨0, 0, 100, 386⟩)
      else if env.class_of hWnd = env.comp_cls then (true, ⟨0, 0, 153, 413⟩)
      else env.orig_ret hWnd
    else env.orig_ret hWnd

/-- A concrete environment: window 1 is a wdb-class window whose parent
(window 2) has the main-window class name, but the tracked primary window is
window 3 ≠ 2. -/
def wnd_env0 : wnd_env where
  class_of := fun h => if h = 1 then ['w'] else if h = 2 then ['m'] else []
  parent_of := fun h => if h = 1 then some 2 else none
  orig_ret := fun _ => (true, ⟨0, 0, 7, 7⟩)
  main_cls := ['m']
  wdb_cls := ['w']
  comp_cls := ['c']
  hwnd_main := 3

/-! ## Claim C8 -/

/-- Claim C8 counterexample: window 1's parent is not the tracked primary
window (`get_hwnd_main`), so by the claim the query should return exactly the
original result; the code keys on the parent's class name instead and returns
the fixed wdb rectangle. -/
theorem hk_GetClientRect_not_by_identity :
    wnd_env0.parent_of 1 ≠ some wnd_env0.hwnd_main ∧
    hk_GetClientRect wnd_env0 1 = (true, ⟨0, 0, 100, 386⟩) ∧
    hk_GetClientRect wnd_env0 1 ≠ wnd_env0.orig_ret 1 := by
  decide

/-- Claim C8 (amended): for every window whose parent window's class name is
the primary-window class name, the query reports the fixed logical rectangle
of the window's class (wdb: 100×386, compressor/denoiser: 153×413) regardless
of actual size; for every other window it returns exactly what the original
function returns. -/
theorem hk_GetClientRect_fixed_size (env : wnd_env) (hWnd parent : Nat)
    (hcls : env.wdb_cls ≠ env.comp_cls) :
    (env.parent_of hWnd = some parent → env.class_of parent = env.main_cls →
      ((env.class_of hWnd = env.wdb_cls →
        hk_GetClientRect env hWnd = (true, ⟨0, 0, 100, 386⟩)) ∧
       (env.class_of hWnd = env.comp_cls →
        hk_GetClientRect env hWnd = (true, ⟨0, 0, 153, 413⟩)))) ∧
    ((env.parent_of hWnd = none ∨
      (env.parent_of hWnd = some parent ∧
        (env.class_of parent ≠ env.main_cls ∨
          (env.class_of hWnd ≠ env.wdb_cls ∧ env.class_of hWnd ≠ env.comp_cls)))) →
      hk_GetClientRect env hWnd = env.orig_ret hWnd) := by
  constructor
  · intro hpar hmain
    constructor
    · intro hwdb
      simp only [hk_GetClientRect, hpar, if_pos hmain, if_pos hwdb]
    · intro hcomp
      have hnw : env.class_of hWnd ≠ env.wdb_cls := by
        rw [hcomp]
        exact fun hcontra => hcls hcontra.symm
      simp only [hk_GetClientRect, hpar, if_pos hmain, if_neg hnw, if_pos hcomp]
  · rintro (hnone | ⟨hpar, hrest⟩)
    · simp only [hk_GetClientRect, hnone]
    · rcases hrest with hnm | ⟨hnw, hnc⟩
      · simp only [hk_GetClientRect, hpar, if_neg hnm]
      · simp only [hk_GetClientRect, hpar, if_neg hnw, if_neg hnc]
        split
        · rfl
        · rfl

/-- Witness for amended C8 in `wnd_env0`: window 1 (wdb class, parent of main
class) gets the fixed wdb rectangle. -/
theorem hk_GetClientRect_fixed_size_witness :
    (wnd_env0.wdb_cls ≠ wnd_env0.comp_cls ∧
     wnd_env0.parent_of 1 = some 2 ∧
     wnd_env0.class_of 2 = wnd_env0.main_cls ∧
     wnd_env0.class_of 1 = wnd_env0.wdb_cls) ∧
    hk_GetClientRect wnd_env0 1 = (true, ⟨0, 0, 100, 386⟩) :=
  ⟨⟨by decide, by decide, by decide, by decide⟩,
   (((hk_GetClientRect_fixed_size wnd_env0 1 2 (by decide)).1 (by decide) (by decide)).1
     (by decide))⟩

/-! ## Interactive resize (`hk_WndProc_main`, `WM_SIZING` branch) -/

/-- Rounding `(a + c/2) / c` equals `(2a + c) / (2c)` on naturals: adding half
the denominator before dividing rounds the quotient to the nearest integer. -/
theorem nat_round_half (a c : Nat) (hc : 0 < c) :
    (a + c / 2) / c = (2 * a + c) / (2 * c) := by
  set q := (a + c / 2) / c with hq
  have h1 : q * c ≤ a + c / 2 := Nat.div_mul_le_self _ _
  have h2 : a + c / 2 < (q + 1) * c := by
    have hmod := Nat.div_add_mod (a + c / 2) c
    have hlt := Nat.mod_lt (a + c / 2) hc
    rw [← hq] at hmod
    have hring : (q + 1) * c = c * q + c := by ring
    rw [hring]
    linarith [hmod, hlt]
  symm
  apply Nat.div_eq_of_lt_le
  · calc q * (2 * c) = 2 * (q * c) := by ring
    _ ≤ 2 * (a + c / 2) := Nat.mul_le_mul_left 2 h1
    _ ≤ 2 * a + c := by omega
  · have h2' : a + c / 2 + 1 ≤ (q + 1) * c := h2
    calc 2 * a + c < 2 * (a + c / 2 + 1) := by omega
    _ ≤ 2 * ((q + 1) * c) := Nat.mul_le_mul_left 2 h2'
    _ = (q + 1) * (2 * c) := by ring

/-- Windows `MulDiv(n, num, den)`: multiply, add half the denominator and
divide, rounding the quotient to the nearest integer; C++ integer division
truncates toward zero, hence `Int.tdiv`. -/
def MulDiv (nNumber nNumerator nDenominator : Int) : Int :=
  (nNumber * nNumerator + nDenominator.tdiv 2).tdiv nDenominator

/-- Specification-side rounding of the rational `a / b` to the nearest
integer, as a floor of `(2a + b) / (2b)`. -/
def round_div (a b : Int) : Int := (2 * a + b) / (2 * b)

/-- Truncating division by two agrees with natural division on casts. -/
theorem tdiv_two_cast (n : Nat) : ((n : Int)).tdiv 2 = ((n / 2 : Nat) : Int) := by
  have h := Int.ofNat_tdiv n 2
  exact_mod_cast h.symm

/-- For a nonnegative numerator and positive denominator, `MulDiv` computes
the nearest integer to `w * cy / cx`. -/
theorem MulDiv_eq_round (w cy cx : Int) (hw : 0 ≤ w) (hcy : 0 < cy) (hcx : 0 < cx) :
    MulDiv w cy cx = round_div (w * cy) cx := by
  lift w to ℕ using hw
  lift cy to ℕ using le_of_lt hcy
  lift cx to ℕ using le_of_lt hcx
  have hcx' : 0 < cx := by exact_mod_cast hcx
  rw [MulDiv, round_div, tdiv_two_cast]
  have h1 : (w : Int) * (cy : Int) + ((cx / 2 : Nat) : Int) =
      ((w * cy + cx / 2 : Nat) : Int) := by
    push_cast
    ring
  rw [h1]
  have h2 : ((w * cy + cx / 2 : Nat) : Int).tdiv (cx : Int) =
      (((w * cy + cx / 2) / cx : Nat) : Int) := by
    exact_mod_cast (Int.ofNat_tdiv (w * cy + cx / 2) cx).symm
  rw [h2]
  have h3 : 2 * ((w : Int) * (cy : Int)) + (cx : Int) =
      ((2 * (w * cy) + cx : Nat) : Int) := by
    push_cast
    ring
  have h4 : 2 * (cx : Int) = ((2 * cx : Nat) : Int) := by
    push_cast
    ring
  rw [h3, h4, ← Int.natCast_div]
  exact_mod_cast nat_round_half (w * cy) cx hcx'

/-- Truncating halving of a positive value is nonnegative and at most the
value itself. -/
theorem tdiv_two_bounds (n : Int) (hn : 0 < n) : 0 ≤ n.tdiv 2 ∧ n.tdiv 2 ≤ n := by
  lift n to ℕ using le_of_lt hn
  rw [tdiv_two_cast]
  constructor
  · exact_mod_cast Nat.zero_le _
  · exact_mod_cast Nat.div_le_self n 2

/-- The `WM_SIZING` branch of `hk_WndProc_main` for a bottom-right drag:
from the tracked window's creation size (`wctx.default_cx`, `wctx.default_cy`)
and the dragged rectangle's width `rect->right - rect->left`, compute the
width and height written back into the rectangle:
`new_width = max(default_cx / 2, min(default_cx, new_width))`, then
`new_height = MulDiv(new_width, default_cy, default_cx)` clamped the same
way. -/
def hk_WndProc_main_wm_sizing (default_cx default_cy req_width : Int) : Int × Int :=
  let new_width := max (default_cx.tdiv 2) (min default_cx req_width)
  let new_height0 := MulDiv new_width default_cy default_cx
  let new_height := max (default_cy.tdiv 2) (min default_cy new_height0)
  (new_width, new_height)

/-! ## Claim C6 -/

/-- Claim C6: for every requested width, the accepted width lies in
`[default_cx/2, default_cx]`; the derived height equals the nearest-integer
rounding of `width * default_cy / default_cx` clamped to
`[default_cy/2, default_cy]`, and hence lies in that range. -/
theorem hk_WndProc_main_wm_sizing_clamp (cx cy req : Int) (hcx : 0 < cx) (hcy : 0 < cy) :
    cx.tdiv 2 ≤ (hk_WndProc_main_wm_sizing cx cy req).1 ∧
    (hk_WndProc_main_wm_sizing cx cy req).1 ≤ cx ∧
    (hk_WndProc_main_wm_sizing cx cy req).2 =
      max (cy.tdiv 2) (min cy (round_div ((hk_WndProc_main_wm_sizing cx cy req).1 * cy) cx)) ∧
    cy.tdiv 2 ≤ (hk_WndProc_main_wm_sizing cx cy req).2 ∧
    (hk_WndProc_main_wm_sizing cx cy req).2 ≤ cy := by
  obtain ⟨hx0, hxle⟩ := tdiv_two_bounds cx hcx
  obtain ⟨hy0, hyle⟩ := tdiv_two_bounds cy hcy
  have hw1 : (hk_WndProc_main_wm_sizing cx cy req).1 =
      max (cx.tdiv 2) (min cx req) := rfl
  have hw0 : 0 ≤ (hk_WndProc_main_wm_sizing cx cy req).1 := by
    rw [hw1]
    exact le_trans hx0 (le_max_left _ _)
  refine ⟨?_, ?_, ?_, ?_, ?_⟩
  · rw [hw1]
    exact le_max_left _ _
  · rw [hw1]
    exact max_le hxle (min_le_left _ _)
  · show max (cy.tdiv 2) (min cy (MulDiv (max (cx.tdiv 2) (min cx req)) cy cx)) = _
    rw [MulDiv_eq_round _ _ _ (hw1 ▸ hw0) hcy hcx, hw1]
  · exact le_max_left _ _
  · exact max_le hyle (min_le_left _ _)

/-- Witness for C6: logical size 1920×1080, drag width request 1280. -/
theorem hk_WndProc_main_wm_sizing_clamp_witness :
    ((0 : Int) < 1920 ∧ (0 : Int) < 1080) ∧
    ((1920 : Int).tdiv 2 ≤ (hk_WndProc_main_wm_sizing 1920 1080 1280).1 ∧
     (hk_WndProc_main_wm_sizing 1920 1080 1280).1 ≤ 1920 ∧
     (hk_WndProc_main_wm_sizing 1920 1080 1280).2 =
       max ((1080 : Int).tdiv 2)
         (min 1080 (round_div ((hk_WndProc_main_wm_sizing 1920 1080 1280).1 * 1080) 1920)) ∧
     (1080 : Int).tdiv 2 ≤ (hk_WndProc_main_wm_sizing 1920 1080 1280).2 ∧
     (hk_WndProc_main_wm_sizing 1920 1080 1280).2 ≤ 1080) :=
  ⟨⟨by decide, by decide⟩,
   hk_WndProc_main_wm_sizing_clamp 1920 1080 1280 (by decide) (by decide)⟩

/-! ## Dynamic audio-session hook chain -/

/-- The four late-bound function-pointer slots of the audio chain:
`o_GetSessionEnumerator`, `o_GetSession`, `o_GetProcessId`,
`o_IsSystemSoundsSession`.  A `true` flag models a non-null pointer
(slot installed). -/
structure dyn_slots where
  gse : Bool
  gs : Bool
  gpid : Bool
  issss : Bool
deriving DecidableEq

/-- One call arriving at a hook of the chain.  For `hk_CoCreateInstance`,
`matched` is `IsEqualCLSID(rclsid, MMDeviceEnumerator) &&
IsEqualIID(riid, IMMDeviceEnumerator)` and `resolve_ok` tells whether the
device/session-manager resolution chain threw (in which case the hook returns
the error code before installing anything).  In `hk_GetSessionEnumerator` and
`hk_GetSession` a failed resolution only logs; the code still stores the
vtable entries, so those steps carry no outcome flag. -/
inductive dyn_event where
  /-- A call to `hk_CoCreateInstance`. -/
  | coCreate (matched : Bool) (resolve_ok : Bool) : dyn_event
  /-- A call to `hk_GetSessionEnumerator`. -/
  | sessionEnum : dyn_event
  /-- A call to `hk_GetSession`. -/
  | getSession : dyn_event
deriving DecidableEq

/-- One hook invocation: the new slot state, and whether the call took the
pass-through branch (immediately delegating to the original with no vtable
read and no patching).  Mirrors the guard conditions:
`hk_CoCreateInstance` passes through when the ids do not match or
`o_GetSessionEnumerator` is already set; `hk_GetSessionEnumerator` when
`o_GetSession` is set; `hk_GetSession` when `o_GetProcessId` or
`o_IsSystemSoundsSession` is set (and it installs both together). -/
def dyn_step (s : dyn_slots) : dyn_event → dyn_slots × Bool
  | .coCreate matched resolve_ok =>
    if !matched || s.gse then (s, true)
    else if !resolve_ok then (s, false)
    else ({ s with gse := true }, false)
  | .sessionEnum =>
    if s.gs then (s, true)
    else ({ s with gs := true }, false)
  | .getSession =>
    if s.gpid || s.issss then (s, true)
    else ({ s with gpid := true, issss := true }, false)

/-- Folding a sequence of hook invocations over the slot state. -/
def dyn_run (s : dyn_slots) (evs : List dyn_event) : dyn_slots :=
  evs.foldl (fun st e => (dyn_step st e).1) s

/-- Per-event slot monotonicity: no installed slot is ever cleared. -/
theorem dyn_step_mono (s : dyn_slots) (e : dyn_event) :
    (s.gse = true → ((dyn_step s e).1).gse = true) ∧
    (s.gs = true → ((dyn_step s e).1).gs = true) ∧
    (s.gpid = true → ((dyn_step s e).1).gpid = true) ∧
    (s.issss = true → ((dyn_step s e).1).issss = true) := by
  cases e with
  | coCreate matched resolve_ok =>
    simp only [dyn_step]
    split
    · exact ⟨id, id, id, id⟩
    · split
      · exact ⟨id, id, id, id⟩
      · exact ⟨fun _ => rfl, id, id, id⟩
  | sessionEnum =>
    simp only [dyn_step]
    split
    · exact ⟨id, id, id, id⟩
    · exact ⟨id, fun _ => rfl, id, id⟩
  | getSession =>
    simp only [dyn_step]
    split
    · exact ⟨id, id, id, id⟩
    · exact ⟨id, id, fun _ => rfl, fun _ => rfl⟩

/-! ## Claim C7 -/

/-- Claim C7: each dynamic slot of the audio chain is installed at most once:
once a slot is installed, a further call through the corresponding hook takes
the pass-through branch and leaves the state untouched (no re-reading of the
dispatch table, no re-patching), and over any sequence of calls an installed
slot never regresses to unresolved. -/
theorem dyn_slots_install_once (s : dyn_slots) (evs : List dyn_event)
    (matched resolve_ok : Bool) :
    (s.gse = true → dyn_step s (dyn_event.coCreate matched resolve_ok) = (s, true)) ∧
    (s.gs = true → dyn_step s dyn_event.sessionEnum = (s, true)) ∧
    (s.gpid = true ∨ s.issss = true → dyn_step s dyn_event.getSession = (s, true)) ∧
    ((s.gse = true → (dyn_run s evs).gse = true) ∧
     (s.gs = true → (dyn_run s evs).gs = true) ∧
     (s.gpid = true → (dyn_run s evs).gpid = true) ∧
     (s.issss = true → (dyn_run s evs).issss = true)) := by
  refine ⟨?_, ?_, ?_, ?_⟩
  · intro hgse
    simp [dyn_step, hgse]
  · intro hgs
    simp [dyn_step, hgs]
  · intro hor
    rcases hor with h | h <;> simp [dyn_step, h]
  · induction evs generalizing s with
    | nil => exact ⟨id, id, id, id⟩
    | cons e rest ih =>
      obtain ⟨m1, m2, m3, m4⟩ := dyn_step_mono s e
      obtain ⟨r1, r2, r3, r4⟩ := ih (dyn_step s e).1
      exact ⟨fun h => r1 (m1 h), fun h => r2 (m2 h),
        fun h => r3 (m3 h), fun h => r4 (m4 h)⟩

/-- Witness for C7: from the fully installed state, a matching
`CoCreateInstance` call, a `GetSessionEnumerator` call and a `GetSession`
call all pass through unchanged, and the installed state survives a run. -/
theorem dyn_slots_install_once_witness :
    ((⟨true, true, true, true⟩ : dyn_slots).gse = true ∧
     (⟨true, true, true, true⟩ : dyn_slots).gs = true ∧
     ((⟨true, true, true, true⟩ : dyn_slots).gpid = true ∨
      (⟨true, true, true, true⟩ : dyn_slots).issss = true)) ∧
    (dyn_step ⟨true, true, true, true⟩ (dyn_event.coCreate true true) =
        (⟨true, true, true, true⟩, true) ∧
     dyn_step ⟨true, true, true, true⟩ dyn_event.sessionEnum =
        (⟨true, true, true, true⟩, true) ∧
     dyn_step ⟨true, true, true, true⟩ dyn_event.getSession =
        (⟨true, true, true, true⟩, true) ∧
     (dyn_run ⟨true, true, true, true⟩ [dyn_event.getSession]).gse = true) :=
  ⟨⟨rfl, rfl, Or.inl rfl⟩,
   ⟨(dyn_slots_install_once ⟨true, true, true, true⟩ [dyn_event.getSession] true true).1 rfl,
    (dyn_slots_install_once ⟨true, true, true, true⟩ [dyn_event.getSession] true true).2.1 rfl,
    (dyn_slots_install_once ⟨true, true, true, true⟩ [dyn_event.getSession] true true).2.2.1
      (Or.inl rfl),
    (dyn_slots_install_once ⟨true, true, true, true⟩ [dyn_event.getSession] true
      true).2.2.2.1 rfl⟩⟩

/-! ## Hook batch installation (`apply_hooks` on the Detours transaction) -/

/-- One entry of the `hooks_base` / `hooks_theme` tables: `target_set` is the
`*original != nullptr` guard, `id` identifies the original function. -/
structure hook_entry where
  target_set : Bool
  id : Nat
deriving DecidableEq

/-- The Detours transaction state: `staged` are redirections attached inside
the open transaction (`DetourAttach`), which become globally visible only at
`DetourTransactionCommit`; `active` are the redirections already live.  This
models the library's documented staging semantics, which §3 of the
specification also records ("staging all redirections before making them
globally visible, then flushing code caches as a single step"). -/
structure detours_state where
  staged : List Nat
  active : List Nat

/-- Outcome oracle for one `apply_hooks` run: whether
`DetourTransactionBegin`, `DetourUpdateThread` and `DetourTransactionCommit`
report `NO_ERROR`, whether `DetourAttach` succeeds for a given hook id, and
the `cm->get_theme_enabled()` flag. -/
structure hook_env where
  begin_ok : Bool
  update_ok : Bool
  commit_ok : Bool
  attach_ok : Nat → Bool
  theme_enabled : Bool

/-- The attach loop of `apply_hooks` over one hook table: entries with a null
original pointer are skipped; a failing `DetourAttach` aborts the loop
immediately (`return false`), leaving the entries attached so far staged in
the still-open transaction. -/
def attach_list (env : hook_env) (hooks : List hook_entry) (st : detours_state) :
    Bool × detours_state :=
  match hooks with
  | [] => (true, st)
  | h :: rest =>
    if h.target_set then
      if env.attach_ok h.id then
        attach_list env rest { st with staged := st.staged ++ [h.id] }
      else (false, st)
    else attach_list env rest st

/-- `DetourTransactionCommit`: every staged redirection becomes active in one
step. -/
def detours_commit (st : detours_state) : detours_state :=
  { staged := [], active := st.active ++ st.staged }

/-- Model of `apply_hooks`: begin the transaction, enlist the thread, attach
`hooks_base`, attach `hooks_theme` when the theme is enabled, then commit;
any failure returns `false` at once, before the commit makes anything
visible. -/
def apply_hooks (env : hook_env) (hooks_base hooks_theme : List hook_entry)
    (st : detours_state) : Bool × detours_state :=
  if !env.begin_ok then (false, st)
  else if !env.update_ok then (false, st)
  else
    let r1 := attach_list env hooks_base st
    if r1.1 = false then (false, r1.2)
    else
      let r2 := if env.theme_enabled then attach_list env hooks_theme r1.2 else (true, r1.2)
      if r2.1 = false then (false, r2.2)
      else if env.commit_ok then (true, detours_commit r2.2) else (false, r2.2)

/-- The attach loop never touches the set of active redirections. -/
theorem attach_list_active (env : hook_env) (hooks : List hook_entry)
    (st : detours_state) : ((attach_list env hooks st).2).active = st.active := by
  induction hooks generalizing st with
  | nil => rfl
  | cons h rest ih =>
    rw [attach_list]
    by_cases ht : h.target_set
    · rw [if_pos ht]
      by_cases ha : env.attach_ok h.id
      · rw [if_pos ha]
        exact ih _
      · rw [if_neg ha]
    · rw [if_neg ht]
      exact ih _

/-- If some eligible entry's `DetourAttach` fails, the attach loop reports
failure. -/
theorem attach_list_fails (env : hook_env) (hooks : List hook_entry)
    (st : detours_state)
    (hfail : ∃ h ∈ hooks, h.target_set = true ∧ env.attach_ok h.id = false) :
    (attach_list env hooks st).1 = false := by
  induction hooks generalizing st with
  | nil => rcases hfail with ⟨h, hh, _⟩; cases hh
  | cons h rest ih =>
    rw [attach_list]
    by_cases ht : h.target_set
    · rw [if_pos ht]
      by_cases ha : env.attach_ok h.id
      · rw [if_pos ha]
        rcases hfail with ⟨g, hg, hgset, hgfail⟩
        rcases List.mem_cons.mp hg with hgh | hgrest
        · rw [hgh] at hgfail; rw [hgfail] at ha; cases ha
        · exact ih _ ⟨g, hgrest, hgset, hgfail⟩
      · rw [if_neg ha]
    · rw [if_neg ht]
      rcases hfail with ⟨g, hg, hgset, hgfail⟩
      rcases List.mem_cons.mp hg with hgh | hgrest
      · rw [hgh] at hgset; rw [hgset] at ht; cases ht rfl
      · exact ih _ ⟨g, hgrest, hgset, hgfail⟩

/-! ## Claim C4 -/

/-- Claim C4: hook installation is atomic per batch: if any record of the base
batch (or of the theme batch when the theme is enabled) fails to attach, the
installation reports failure; and whenever it reports failure, the set of
active redirections is exactly what it was before — no record of the batch is
observably active, since activation happens only at the final commit. -/
theorem apply_hooks_atomic (env : hook_env) (hooks_base hooks_theme : List hook_entry)
    (st : detours_state) :
    ((∃ h ∈ hooks_base, h.target_set = true ∧ env.attach_ok h.id = false) →
      (apply_hooks env hooks_base hooks_theme st).1 = false) ∧
    ((env.theme_enabled = true ∧
      ∃ h ∈ hooks_theme, h.target_set = true ∧ env.attach_ok h.id = false) →
      (apply_hooks env hooks_base hooks_theme st).1 = false) ∧
    ((apply_hooks env hooks_base hooks_theme st).1 = false →
      ((apply_hooks env hooks_base hooks_theme st).2).active = st.active) := by
  refine ⟨?_, ?_, ?_⟩
  · intro hfail
    rw [apply_hooks]
    by_cases hb : env.begin_ok
    · by_cases hu : env.update_ok
      · have h1 := attach_list_fails env hooks_base st hfail
        simp [hb, hu, h1]
      · simp [hu]
    · simp [hb]
  · rintro ⟨hth, hfail⟩
    rw [apply_hooks]
    by_cases hb : env.begin_ok
    · by_cases hu : env.update_ok
      · by_cases h1 : (attach_list env hooks_base st).1 = false
        · simp [hb, hu, h1]
        · have h2 := attach_list_fails env hooks_theme (attach_list env hooks_base st).2 hfail
          simp [hb, hu, h1, hth, h2]
      · simp [hu]
    · simp [hb]
  · intro hfalse
    rw [apply_hooks] at hfalse ⊢
    by_cases hb : env.begin_ok
    · by_cases hu : env.update_ok
      · have hact1 := attach_list_active env hooks_base st
        by_cases h1 : (attach_list env hooks_base st).1 = false
        · simp only [hb, hu, Bool.not_true, Bool.false_eq_true, if_false, h1, if_true,
            if_pos rfl]
          exact hact1
        · by_cases hth : env.theme_enabled
          · have hact2 := attach_list_active env hooks_theme (attach_list env hooks_base st).2
            by_cases h2 : (attach_list env hooks_theme (attach_list env hooks_base st).2).1 = false
            · simp [hb, hu, h1, hth, h2, hact1, hact2]
            · by_cases hc : env.commit_ok
              · simp [hb, hu, h1, hth, h2, hc] at hfalse
              · simp [hb, hu, h1, hth, h2, hc, hact1, hact2]
          · by_cases hc : env.commit_ok
            · simp [hb, hu, h1, hth, hc] at hfalse
            · simp [hb, hu, h1, hth, hc, hact1]
      · simp [hu]
    · simp [hb]

/-- Witness for C4: a two-record base batch whose second attach fails reports
failure and leaves the active set unchanged. -/
theorem apply_hooks_atomic_witness :
    (∃ h ∈ [(⟨true, 0⟩ : hook_entry), ⟨true, 1⟩], h.target_set = true ∧
      (fun i => i == 0) h.id = false) ∧
    (apply_hooks ⟨true, true, true, fun i => i == 0, false⟩
      [⟨true, 0⟩, ⟨true, 1⟩] [] ⟨[], []⟩).1 = false ∧
    ((apply_hooks ⟨true, true, true, fun i => i == 0, false⟩
      [⟨true, 0⟩, ⟨true, 1⟩] [] ⟨[], []⟩).2).active = ([] : List Nat) :=
  ⟨⟨⟨true, 1⟩, by decide, by decide, by decide⟩,
   (apply_hooks_atomic ⟨true, true, true, fun i => i == 0, false⟩
      [⟨true, 0⟩, ⟨true, 1⟩] [] ⟨[], []⟩).1
     ⟨⟨true, 1⟩, by decide, by decide, by decide⟩,
   (apply_hooks_atomic ⟨true, true, true, fun i => i == 0, false⟩
      [⟨true, 0⟩, ⟨true, 1⟩] [] ⟨[], []⟩).2.2
     ((apply_hooks_atomic ⟨true, true, true, fun i => i == 0, false⟩
      [⟨true, 0⟩, ⟨true, 1⟩] [] ⟨[], []⟩).1
        ⟨⟨true, 1⟩, by decide, by decide, by decide⟩)⟩

/-! ## Shellcode patcher (`apply_scroll_patch64` / `apply_scroll_patch32`) -/

/-- The effect on the module image of `memcpy_s(dst, n, src, n)` at offset
`addr`: bytes inside `[addr, addr + bytes.length)` come from `bytes`, all
others stay. -/
def write_bytes (img : List Nat) (addr : Nat) (bytes : List Nat) : List Nat :=
  (List.range img.length).map fun a =>
    if addr ≤ a ∧ a < addr + bytes.length then bytes.getD (a - addr) 0 else img.getD a 0

/-- Little-endian encoding of a value into `n` bytes, as the x86 `memcpy_s` of
an `n`-byte integer lays it out. -/
def le_bytes : Nat → Nat → List Nat
  | 0, _ => []
  | n + 1, v => v % 256 :: le_bytes n (v / 256)

/-- The x64 multiply thunk of `apply_scroll_patch64`
(`push rcx; mov rcx, scroll_value; movss xmm6, [rcx]; mulss xmm0, xmm6;
pop rcx; ret`) with the 8-byte scroll-variable address spliced in at
offset 3. -/
def shellcode_multiply64 (scroll_addr : Nat) : List Nat :=
  [0x51, 0x48, 0xB9] ++ le_bytes 8 scroll_addr ++
    [0xF3, 0x0F, 0x10, 0x31, 0xF3, 0x0F, 0x59, 0xC6, 0x59, 0xC3]

/-- The x86 multiply thunk of `apply_scroll_patch32`
(`push eax; mov eax, scroll_value; fmul qword ptr [eax]; pop eax; ret`) with
the 4-byte address spliced in at offset 2. -/
def shellcode_multiply32 (scroll_addr : Nat) : List Nat :=
  [0x50, 0xB8] ++ le_bytes 4 scroll_addr ++ [0xD8, 0x08, 0x58, 0xC3]

/-- The x64 call-site patch: `call rel32` with the displacement in
two's-complement little-endian, followed by three `nop`s sized to the
replaced instruction. -/
def shellcode_call64 (offset : Int) : List Nat :=
  0xE8 :: (le_bytes 4 (offset.emod 4294967296).toNat ++ [0x90, 0x90, 0x90])

/-- The x86 call-site patch: `call rel32` followed by one `nop`. -/
def shellcode_call32 (offset : Int) : List Nat :=
  0xE8 :: (le_bytes 4 (offset.emod 4294967296).toNat ++ [0x90])

/-- First x64 `mulss` signature of `apply_scroll_patch64`
(`F3 0F 59 05 ?? ?? ?? ?? 0F 28 F2 F3 0F 5C F0 0F 2F CE`, mask
`xxxx????xxxxxxxxxx`). -/
def sig_mulss1 : signature_t :=
  ⟨[0xF3, 0x0F, 0x59, 0x05, 0x00, 0x00, 0x00, 0x00, 0x0F, 0x28, 0xF2, 0xF3, 0x0F, 0x5C,
    0xF0, 0x0F, 0x2F, 0xCE],
   ['x', 'x', 'x', 'x', '?', '?', '?', '?', 'x', 'x', 'x', 'x', 'x', 'x', 'x', 'x', 'x', 'x']⟩

/-- Second x64 `mulss` signature of `apply_scroll_patch64` (mask
`xxxx????xxxx?????xxx`). -/
def sig_mulss2 : signature_t :=
  ⟨[0xF3, 0x0F, 0x59, 0x05, 0x00, 0x00, 0x00, 0x00, 0xF3, 0x0F, 0x10, 0x94, 0x00, 0x00,
    0x00, 0x00, 0x00, 0x0F, 0x28, 0xF2],
   ['x', 'x', 'x', 'x', '?', '?', '?', '?', 'x', 'x', 'x', 'x', '?', '?', '?', '?', '?',
    'x', 'x', 'x']⟩

/-- First x86 `fmul` signature of `apply_scroll_patch32` (mask `x???xx?xx`). -/
def sig_fmul1 : signature_t :=
  ⟨[0xD9, 0x00, 0x00, 0x00, 0xDB, 0x45, 0x00, 0xDC, 0x0D],
   ['x', '?', '?', '?', 'x', 'x', '?', 'x', 'x']⟩

/-- Second x86 `fmul` signature of `apply_scroll_patch32`
(mask `x??????xx?xx`). -/
def sig_fmul2 : signature_t :=
  ⟨[0xD9, 0x00, 0x00, 0x00, 0x00, 0x00, 0x00, 0xDB, 0x45, 0x00, 0xDC, 0x0D],
   ['x', '?', '?', '?', '?', '?', '?', 'x', 'x', '?', 'x', 'x']⟩

/-- Model of `utils::apply_scroll_patch64`, returning (result, final image).
The thunk with the embedded scroll-variable address is written into the code
cave; the two signature variants are then scanned over the patched image and
their occurrence lists concatenated (base occurrences before the second
variant's); only when the combined count is exactly two are the two call
sites overwritten with `call rel32 + nops`.  `GetModuleHandle`,
`VirtualProtect` and `FlushInstructionCache` are modelled as succeeding; their
failure paths return `false` even earlier, modifying nothing beyond what was
already written. -/
def apply_scroll_patch64 (sections : List section_info) (img : List Nat)
    (scroll_addr : Nat) : Bool × List Nat :=
  let shellcode_multiply := shellcode_multiply64 scroll_addr
  match find_code_cave sections (fun a => img.getD a 0) shellcode_multiply.length with
  | none => (false, img)
  | some ptr_text_end =>
    let img1 := write_bytes img ptr_text_end shellcode_multiply
    let mulss_merged := find_signatures sig_mulss1 img1 ++ find_signatures sig_mulss2 img1
    if mulss_merged.length = 2 then
      let mulss1 := mulss_merged.getD 0 0
      let mulss2 := mulss_merged.getD 1 0
      let img2 := write_bytes img1 mulss1
        (shellcode_call64 ((ptr_text_end : Int) - ((mulss1 : Int) + 5)))
      let img3 := write_bytes img2 mulss2
        (shellcode_call64 ((ptr_text_end : Int) - ((mulss2 : Int) + 5)))
      (true, img3)
    else (false, img1)

/-- Model of `utils::apply_scroll_patch32`: as the 64-bit variant, with the
x86 thunk and `fmul` signatures; the patched call sites sit at offsets +7 and
+10 from the first and second match respectively. -/
def apply_scroll_patch32 (sections : List section_info) (img : List Nat)
    (scroll_addr : Nat) : Bool × List Nat :=
  let shellcode_multiply := shellcode_multiply32 scroll_addr
  match find_code_cave sections (fun a => img.getD a 0) shellcode_multiply.length with
  | none => (false, img)
  | some ptr_text_end =>
    let img1 := write_bytes img ptr_text_end shellcode_multiply
    let fmul_merged := find_signatures sig_fmul1 img1 ++ find_signatures sig_fmul2 img1
    if fmul_merged.length = 2 then
      let fmul1 := fmul_merged.getD 0 0 + 7
      let fmul2 := fmul_merged.getD 1 0 + 10
      let img2 := write_bytes img1 fmul1
        (shellcode_call32 ((ptr_text_end : Int) - ((fmul1 : Int) + 5)))
      let img3 := write_bytes img2 fmul2
        (shellcode_call32 ((ptr_text_end : Int) - ((fmul2 : Int) + 5)))
      (true, img3)
    else (false, img1)

/-- `write_bytes` leaves length unchanged. -/
theorem write_bytes_length (img : List Nat) (addr : Nat) (bytes : List Nat) :
    (write_bytes img addr bytes).length = img.length := by
  simp [write_bytes]

/-- Bytes outside the written window are untouched. -/
theorem write_bytes_getD_outside (img : List Nat) (addr : Nat) (bytes : List Nat)
    (a : Nat) (h : a < addr ∨ addr + bytes.length ≤ a) :
    (write_bytes img addr bytes).getD a 0 = img.getD a 0 := by
  by_cases hl : a < img.length
  · rw [write_bytes, List.getD_eq_getElem?_getD, List.getElem?_map,
      List.getElem?_range hl]
    simp only [Option.map_some', Option.getD_some]
    rw [if_neg (by omega)]
  · rw [List.getD_eq_default _ _ (by rw [write_bytes_length]; omega),
      List.getD_eq_default _ _ (by omega)]

/-! ## Claim C3 -/

/-- Claim C3: in both scroll-patch variants, when the combined occurrence
count of the two signature variants over the thunk-patched image differs from
two, the operation reports failure and the image equals the one with just the
thunk written into the cave — the thunk remains in place and no call site or
other byte outside the cave window is modified. -/
theorem apply_scroll_patch_abort (sections : List section_info) (img : List Nat)
    (scroll_addr e64 e32 : Nat)
    (hcave64 : find_code_cave sections (fun a => img.getD a 0)
      (shellcode_multiply64 scroll_addr).length = some e64)
    (hcount64 : (find_signatures sig_mulss1
        (write_bytes img e64 (shellcode_multiply64 scroll_addr)) ++
      find_signatures sig_mulss2
        (write_bytes img e64 (shellcode_multiply64 scroll_addr))).length ≠ 2)
    (hcave32 : find_code_cave sections (fun a => img.getD a 0)
      (shellcode_multiply32 scroll_addr).length = some e32)
    (hcount32 : (find_signatures sig_fmul1
        (write_bytes img e32 (shellcode_multiply32 scroll_addr)) ++
      find_signatures sig_fmul2
        (write_bytes img e32 (shellcode_multiply32 scroll_addr))).length ≠ 2) :
    (apply_scroll_patch64 sections img scroll_addr =
      (false, write_bytes img e64 (shellcode_multiply64 scroll_addr)) ∧
     ∀ a, a < e64 ∨ e64 + (shellcode_multiply64 scroll_addr).length ≤ a →
       ((apply_scroll_patch64 sections img scroll_addr).2).getD a 0 = img.getD a 0) ∧
    (apply_scroll_patch32 sections img scroll_addr =
      (false, write_bytes img e32 (shellcode_multiply32 scroll_addr)) ∧
     ∀ a, a < e32 ∨ e32 + (shellcode_multiply32 scroll_addr).length ≤ a →
       ((apply_scroll_patch32 sections img scroll_addr).2).getD a 0 = img.getD a 0) := by
  have h64 : apply_scroll_patch64 sections img scroll_addr =
      (false, write_bytes img e64 (shellcode_multiply64 scroll_addr)) := by
    rw [apply_scroll_patch64]
    simp only [hcave64]
    rw [if_neg hcount64]
  have h32 : apply_scroll_patch32 sections img scroll_addr =
      (false, write_bytes img e32 (shellcode_multiply32 scroll_addr)) := by
    rw [apply_scroll_patch32]
    simp only [hcave32]
    rw [if_neg hcount32]
  refine ⟨⟨h64, ?_⟩, ⟨h32, ?_⟩⟩
  · intro a ha
    rw [h64]
    exact write_bytes_getD_outside img e64 _ a ha
  · intro a ha
    rw [h32]
    exact write_bytes_getD_outside img e32 _ a ha

/-- Witness for C3: a 30-byte all-zero image with a `.text` section ending at
offset 4; after the thunk is written neither signature pair occurs, so the
combined count is 0 and both variants abort with only the thunk written. -/
theorem apply_scroll_patch_abort_witness :
    (find_code_cave [⟨text_name, 0, 4⟩] (fun a => (List.replicate 30 0).getD a 0)
        (shellcode_multiply64 0).length = some 4 ∧
     (find_signatures sig_mulss1
        (write_bytes (List.replicate 30 0) 4 (shellcode_multiply64 0)) ++
      find_signatures sig_mulss2
        (write_bytes (List.replicate 30 0) 4 (shellcode_multiply64 0))).length ≠ 2 ∧
     find_code_cave [⟨text_name, 0, 4⟩] (fun a => (List.replicate 30 0).getD a 0)
        (shellcode_multiply32 0).length = some 4 ∧
     (find_signatures sig_fmul1
        (write_bytes (List.replicate 30 0) 4 (shellcode_multiply32 0)) ++
      find_signatures sig_fmul2
        (write_bytes (List.replicate 30 0) 4 (shellcode_multiply32 0))).length ≠ 2) ∧
    ((apply_scroll_patch64 [⟨text_name, 0, 4⟩] (List.replicate 30 0) 0 =
        (false, write_bytes (List.replicate 30 0) 4 (shellcode_multiply64 0)) ∧
      ∀ a, a < 4 ∨ 4 + (shellcode_multiply64 0).length ≤ a →
        ((apply_scroll_patch64 [⟨text_name, 0, 4⟩] (List.replicate 30 0) 0).2).getD a 0 =
          (List.replicate 30 0).getD a 0) ∧
     (apply_scroll_patch32 [⟨text_name, 0, 4⟩] (List.replicate 30 0) 0 =
        (false, write_bytes (List.replicate 30 0) 4 (shellcode_multiply32 0)) ∧
      ∀ a, a < 4 ∨ 4 + (shellcode_multiply32 0).length ≤ a →
        ((apply_scroll_patch32 [⟨text_name, 0, 4⟩] (List.replicate 30 0) 0).2).getD a 0 =
          (List.replicate 30 0).getD a 0)) :=
  ⟨⟨by decide, by decide, by decide, by decide⟩,
   apply_scroll_patch_abort [⟨text_name, 0, 4⟩] (List.replicate 30 0) 0 4 4
     (by decide) (by decide) (by decide) (by decide)⟩
